import Mathlib

/-!
Verification of the experiments-engine repository's experiment-configuration
store and notification display against its natural-language specification.

The statistical frontend state lives in
`frontend/src/app/(protected)/experiments/store/useExperimentStore.ts`;
its data model in `frontend/src/app/(protected)/experiments/types.ts`.
TypeScript numbers are embedded as rationals (ℚ); optional / possibly-absent
object fields are embedded as `Option`; a thrown exception in a zustand
updater (which leaves the store state unchanged) is embedded as `none` of an
`Option ExperimentState` result.
-/

namespace ExpEngine

/-- MethodType from types.ts: "mab" | "cmab" | "bayes_ab". -/
inductive MethodType where
  | mab
  | cmab
  | bayes_ab
deriving DecidableEq

/-- PriorType from types.ts: "beta" | "normal". -/
inductive PriorType where
  | beta
  | normal
deriving DecidableEq

/-- RewardType from types.ts: "binary" | "real-valued". -/
inductive RewardType where
  | binary
  | realValued
deriving DecidableEq

/-- ContextType from types.ts: "binary" | "real-valued". -/
inductive ContextType where
  | binary
  | realValued
deriving DecidableEq

/-- The autoFailUnit field of the store state: "hours" | "days". -/
inductive TimeUnit where
  | hours
  | days
deriving DecidableEq

/-- Notifications record of the store state (types.ts `Notifications`). -/
structure Notifications where
  onTrialCompletion : Bool
  numberOfTrials : ℚ
  onDaysElapsed : Bool
  daysElapsed : ℚ
  onPercentBetter : Bool
  percentBetterThreshold : ℚ
deriving DecidableEq

/-- A new-experiment arm as a runtime JavaScript object.  The four TS arm
shapes (`NewMABArmBeta`, `NewMABArmNormal`, `NewCMABArm`, `NewBayesianABArm`)
share `name`/`description` and differ in which numeric fields are present;
the store discriminates by runtime field presence (`"alpha_init" in arm`),
so each variant-specific field is an `Option`. -/
structure Arm where
  name : String
  description : String
  alpha_init : Option ℚ
  beta_init : Option ℚ
  mu_init : Option ℚ
  sigma_init : Option ℚ
  is_treatment_arm : Option Bool
deriving DecidableEq

/-- NewContext from types.ts. -/
structure NewContext where
  name : String
  description : String
  value_type : ContextType
deriving DecidableEq

/-- The experiment store state (`ExperimentState` union of types.ts, as a
single runtime record).  `contexts` is present only on CMAB states in TS;
a missing field is embedded as the empty list.  `priorType` (camel case) is a
stray field written by two branches of `updatePriorType` (the source spells
the key differently from `prior_type` there); it is never read back. -/
structure ExperimentState where
  name : String
  description : String
  stickyAssignment : Bool
  autoFail : Bool
  autoFailValue : ℚ
  autoFailUnit : TimeUnit
  methodType : MethodType
  prior_type : PriorType
  priorType : Option PriorType
  reward_type : RewardType
  arms : List Arm
  contexts : List NewContext
  notifications : Notifications
deriving DecidableEq

/-- Type guard `isMABExperimentStateBeta` from useExperimentStore.ts. -/
def isMABExperimentStateBeta (s : ExperimentState) : Bool :=
  s.methodType == .mab && s.prior_type == .beta

/-- Type guard `isMABExperimentStateNormal` from useExperimentStore.ts. -/
def isMABExperimentStateNormal (s : ExperimentState) : Bool :=
  s.methodType == .mab && s.prior_type == .normal

/-- Type guard `isCMABExperimentState` from useExperimentStore.ts. -/
def isCMABExperimentState (s : ExperimentState) : Bool :=
  s.methodType == .cmab

/-- Type guard `isBayesianABState` from useExperimentStore.ts. -/
def isBayesianABState (s : ExperimentState) : Bool :=
  s.methodType == .bayes_ab

/-- The default Beta arm literal used by `createInitialState`,
`updateMethodType` ("mab" branch), `updatePriorType` ("beta" branch) and
`addArm`: name "", description "", alpha_init 1, beta_init 1. -/
def betaDefaultArm : Arm :=
  ⟨"", "", some 1, some 1, none, none, none⟩

/-- The default Normal arm literal used by the "cmab" branches and the MAB
"normal" branches: name "", description "", mu_init 0, sigma_init 1.  Note it
carries no `is_treatment_arm` field. -/
def normalDefaultArm : Arm :=
  ⟨"", "", none, none, some 0, some 1, none⟩

/-- The default treatment arm literal of the `updateMethodType` "bayes_ab"
branch: mu_init 0, sigma_init 1, is_treatment_arm true. -/
def bayesTreatmentDefaultArm : Arm :=
  ⟨"", "", none, none, some 0, some 1, some true⟩

/-- The default control arm literal of the `updateMethodType` "bayes_ab"
branch: mu_init 0, sigma_init 1, is_treatment_arm false. -/
def bayesControlDefaultArm : Arm :=
  ⟨"", "", none, none, some 0, some 1, some false⟩

/-- The default context literal used by the `updateMethodType` "cmab" branch
and by `addContext`. -/
def defaultContext : NewContext :=
  ⟨"", "", .binary⟩

/-- `createInitialState` from useExperimentStore.ts: a MAB experiment with
beta prior, binary reward, and two default Beta(1,1) arms. -/
def createInitialState : ExperimentState where
  name := ""
  description := ""
  stickyAssignment := false
  autoFail := false
  autoFailValue := 10
  autoFailUnit := .days
  methodType := .mab
  prior_type := .beta
  priorType := none
  reward_type := .binary
  arms := [betaDefaultArm, betaDefaultArm]
  contexts := []
  notifications := ⟨false, 0, false, 0, false, 0⟩

/-- The store's initial state. -/
def initialState : ExperimentState := createInitialState

/-- Store action `updateName`. -/
def updateName (n : String) (s : ExperimentState) : ExperimentState :=
  { s with name := n }

/-- Store action `updateDescription`. -/
def updateDescription (d : String) (s : ExperimentState) : ExperimentState :=
  { s with description := d }

/-- Store action `updateStickyAssignment`. -/
def updateStickyAssignment (b : Bool) (s : ExperimentState) : ExperimentState :=
  { s with stickyAssignment := b }

/-- Store action `updateAutoFail`. -/
def updateAutoFail (b : Bool) (s : ExperimentState) : ExperimentState :=
  { s with autoFail := b }

/-- Store action `updateAutoFailValue`. -/
def updateAutoFailValue (v : ℚ) (s : ExperimentState) : ExperimentState :=
  { s with autoFailValue := v }

/-- Store action `updateAutoFailUnit`. -/
def updateAutoFailUnit (u : TimeUnit) (s : ExperimentState) : ExperimentState :=
  { s with autoFailUnit := u }

/-- Store action `updateMethodType`.  If the new method equals the current one
the state is returned unchanged; otherwise the state is rebuilt by spreading
the current state and overriding `methodType`, `prior_type` and `arms`
(and `contexts` for "cmab") with the branch's literals.  The source also
re-lists `reward_type` and `notifications`, which is a no-op over the spread.
The trailing `throw` of the source is unreachable once MethodType is an
enumeration. -/
def updateMethodType (newMethodType : MethodType) (s : ExperimentState) :
    ExperimentState :=
  if newMethodType = s.methodType then s
  else
    match newMethodType with
    | .mab =>
        { s with
          methodType := .mab
          prior_type := .beta
          arms := [betaDefaultArm, betaDefaultArm] }
    | .cmab =>
        { s with
          methodType := .cmab
          prior_type := .normal
          arms := [normalDefaultArm, normalDefaultArm]
          contexts := [defaultContext] }
    | .bayes_ab =>
        { s with
          methodType := .bayes_ab
          prior_type := .normal
          arms := [bayesTreatmentDefaultArm, bayesControlDefaultArm] }

/-- Store action `updatePriorType`.  Same prior: unchanged.  MAB: replaces
`prior_type` and resets every arm to the default of the new family.  CMAB and
Bayesian A/B: the source writes the key `priorType` (not `prior_type`), so the
true prior field is left alone; arms are reset to the default Normal arm
(dropping any `is_treatment_arm` flag).  The trailing `throw` is unreachable.
-/
def updatePriorType (newPriorType : PriorType) (s : ExperimentState) :
    ExperimentState :=
  if newPriorType = s.prior_type then s
  else
    match s.methodType with
    | .mab =>
        match newPriorType with
        | .beta =>
            { s with
              prior_type := .beta
              arms := s.arms.map fun _ => betaDefaultArm }
        | .normal =>
            { s with
              prior_type := .normal
              arms := s.arms.map fun _ => normalDefaultArm }
    | .cmab =>
        { s with
          priorType := some .normal
          arms := s.arms.map fun _ => normalDefaultArm }
    | .bayes_ab =>
        { s with
          priorType := some newPriorType
          arms := s.arms.map fun _ => normalDefaultArm }

/-- Store action `updateRewardType`. -/
def updateRewardType (r : RewardType) (s : ExperimentState) : ExperimentState :=
  { s with reward_type := r }

/-- Store action `updateArms`: each of the four type-guard branches replaces
the arm list with the supplied one (the TS casts are runtime no-ops); the
final `else` throws. -/
def updateArms (newArms : List Arm) (s : ExperimentState) :
    Option ExperimentState :=
  if isMABExperimentStateBeta s then some { s with arms := newArms }
  else if isMABExperimentStateNormal s then some { s with arms := newArms }
  else if isCMABExperimentState s then some { s with arms := newArms }
  else if isBayesianABState s then some { s with arms := newArms }
  else none

/-- A `Partial` arm update: only the present fields overwrite the target
(JavaScript object spread `\x7b...arm, ...armUpdate\x7d`). -/
structure ArmUpdate where
  name : Option String
  description : Option String
  alpha_init : Option ℚ
  beta_init : Option ℚ
  mu_init : Option ℚ
  sigma_init : Option ℚ
  is_treatment_arm : Option Bool
deriving DecidableEq

/-- The spread merge of an arm with a partial update. -/
def mergeArm (a : Arm) (u : ArmUpdate) : Arm where
  name := u.name.getD a.name
  description := u.description.getD a.description
  alpha_init := match u.alpha_init with | some v => some v | none => a.alpha_init
  beta_init := match u.beta_init with | some v => some v | none => a.beta_init
  mu_init := match u.mu_init with | some v => some v | none => a.mu_init
  sigma_init := match u.sigma_init with | some v => some v | none => a.sigma_init
  is_treatment_arm :=
    match u.is_treatment_arm with
    | some v => some v
    | none => a.is_treatment_arm

/-- `newArms[index] = \x7b ...newArms[index], ...armUpdate \x7d` for an
in-bounds index.  (For an out-of-range index JavaScript would extend the
array with holes; the UI only issues in-bounds indexes and that extension is
not modelled: out of range leaves the list unchanged.) -/
def setMergeArm (arms : List Arm) (i : ℕ) (u : ArmUpdate) : List Arm :=
  match arms.get? i with
  | some a => arms.set i (mergeArm a u)
  | none => arms

/-- Store action `updateArm`: all four type-guard branches perform the same
deep-copy-and-merge at the given index (the JSON round-trip of the source is
an identity on this data); the final `else` throws. -/
def updateArm (i : ℕ) (u : ArmUpdate) (s : ExperimentState) :
    Option ExperimentState :=
  if isMABExperimentStateBeta s then some { s with arms := setMergeArm s.arms i u }
  else if isMABExperimentStateNormal s then
    some { s with arms := setMergeArm s.arms i u }
  else if isCMABExperimentState s then
    some { s with arms := setMergeArm s.arms i u }
  else if isBayesianABState s then
    some { s with arms := setMergeArm s.arms i u }
  else none

/-- Store action `addArm`: appends the default arm of the state's family; for
a Bayesian A/B state it throws ("Adding arms for Bayesian A/B experiments is
not currently supported"), leaving the store unchanged; the trailing
`return` is unreachable. -/
def addArm (s : ExperimentState) : Option ExperimentState :=
  if isMABExperimentStateBeta s then
    some { s with arms := s.arms ++ [betaDefaultArm] }
  else if isMABExperimentStateNormal s then
    some { s with arms := s.arms ++ [normalDefaultArm] }
  else if isCMABExperimentState s then
    some { s with arms := s.arms ++ [normalDefaultArm] }
  else if isBayesianABState s then none
  else some s

/-- Store action `removeArm`: a state with at most 2 arms is returned
unchanged; otherwise `splice(index, 1)` removes the element at the index
(no-op when the index is out of range); the final `else` throws. -/
def removeArm (i : ℕ) (s : ExperimentState) : Option ExperimentState :=
  if s.arms.length ≤ 2 then some s
  else if isMABExperimentStateBeta s then
    some { s with arms := s.arms.eraseIdx i }
  else if isMABExperimentStateNormal s then
    some { s with arms := s.arms.eraseIdx i }
  else if isCMABExperimentState s then
    some { s with arms := s.arms.eraseIdx i }
  else if isBayesianABState s then
    some { s with arms := s.arms.eraseIdx i }
  else none

/-- Store action `updateContexts`: non-CMAB states are returned unchanged;
on a CMAB state the context list is replaced with the supplied one. -/
def updateContexts (newContexts : List NewContext) (s : ExperimentState) :
    ExperimentState :=
  if !isCMABExperimentState s then s
  else { s with contexts := newContexts }

/-- A `Partial` context update. -/
structure ContextUpdate where
  name : Option String
  description : Option String
  value_type : Option ContextType
deriving DecidableEq

/-- The spread merge of a context with a partial update. -/
def mergeContext (c : NewContext) (u : ContextUpdate) : NewContext where
  name := u.name.getD c.name
  description := u.description.getD c.description
  value_type := u.value_type.getD c.value_type

/-- In-bounds indexed merge on the context list (same out-of-range caveat as
`setMergeArm`). -/
def setMergeContext (cs : List NewContext) (i : ℕ) (u : ContextUpdate) :
    List NewContext :=
  match cs.get? i with
  | some c => cs.set i (mergeContext c u)
  | none => cs

/-- Store action `updateContext`: non-CMAB states are returned unchanged. -/
def updateContext (i : ℕ) (u : ContextUpdate) (s : ExperimentState) :
    ExperimentState :=
  if !isCMABExperimentState s then s
  else { s with contexts := setMergeContext s.contexts i u }

/-- Store action `addContext`: non-CMAB states are returned unchanged;
otherwise the default context is appended. -/
def addContext (s : ExperimentState) : ExperimentState :=
  if !isCMABExperimentState s then s
  else { s with contexts := s.contexts ++ [defaultContext] }

/-- Store action `removeContext`: unchanged unless the state is CMAB with
more than one context, in which case `splice(index, 1)` removes one. -/
def removeContext (i : ℕ) (s : ExperimentState) : ExperimentState :=
  if !isCMABExperimentState s || s.contexts.length ≤ 1 then s
  else { s with contexts := s.contexts.eraseIdx i }

/-- Store action `updateNotifications`. -/
def updateNotifications (n : Notifications) (s : ExperimentState) :
    ExperimentState :=
  { s with notifications := n }

/-- Store action `resetState`. -/
def resetState (_ : ExperimentState) : ExperimentState :=
  createInitialState

/-- One invocation of an experiment-store action, with its payload. -/
inductive StoreOp where
  | updName (n : String)
  | updDescription (d : String)
  | updStickyAssignment (b : Bool)
  | updAutoFail (b : Bool)
  | updAutoFailValue (v : ℚ)
  | updAutoFailUnit (u : TimeUnit)
  | updMethodType (m : MethodType)
  | updPriorType (p : PriorType)
  | updRewardType (r : RewardType)
  | updArms (arms : List Arm)
  | updArm (i : ℕ) (u : ArmUpdate)
  | addArm
  | removeArm (i : ℕ)
  | updContexts (cs : List NewContext)
  | updContext (i : ℕ) (u : ContextUpdate)
  | addContext
  | removeContext (i : ℕ)
  | updNotifications (n : Notifications)
  | reset
deriving DecidableEq

/-- Run one store action.  `none` is a thrown exception, which leaves the
zustand store unchanged (no new state is produced). -/
def applyOp : StoreOp → ExperimentState → Option ExperimentState
  | .updName n, s => some (updateName n s)
  | .updDescription d, s => some (updateDescription d s)
  | .updStickyAssignment b, s => some (updateStickyAssignment b s)
  | .updAutoFail b, s => some (updateAutoFail b s)
  | .updAutoFailValue v, s => some (updateAutoFailValue v s)
  | .updAutoFailUnit u, s => some (updateAutoFailUnit u s)
  | .updMethodType m, s => some (updateMethodType m s)
  | .updPriorType p, s => some (updatePriorType p s)
  | .updRewardType r, s => some (updateRewardType r s)
  | .updArms arms, s => updateArms arms s
  | .updArm i u, s => updateArm i u s
  | .addArm, s => addArm s
  | .removeArm i, s => removeArm i s
  | .updContexts cs, s => some (updateContexts cs s)
  | .updContext i u, s => some (updateContext i u s)
  | .addContext, s => some (addContext s)
  | .removeContext i, s => some (removeContext i s)
  | .updNotifications n, s => some (updateNotifications n s)
  | .reset, s => some (resetState s)

/-- States reachable from the initial store state using only the actions the
`allowed` filter admits. -/
inductive ReachableW (allowed : StoreOp → Bool) : ExperimentState → Prop where
  | init : ReachableW allowed initialState
  | step {s s' : ExperimentState} (op : StoreOp) :
      ReachableW allowed s → allowed op = true → applyOp op s = some s' →
      ReachableW allowed s'

/-- States reachable from the initial store state by any action sequence. -/
def Reachable : ExperimentState → Prop :=
  ReachableW fun _ => true

/-- Is this action an `updateArms` call (the one action whose payload is an
arbitrary arm list)? -/
def StoreOp.isUpdArms : StoreOp → Bool
  | .updArms _ => true
  | _ => false

/-- Is this action an `updateContexts` call (the one action whose payload is
an arbitrary context list)? -/
def StoreOp.isUpdContexts : StoreOp → Bool
  | .updContexts _ => true
  | _ => false

/-!
Form validation components.

`AddMABArms.validateForm` (add/components/mabs/addMABArms.tsx) and
`AddBayesABArms.validateForm` (add/components/bayes_ab/addBayesABArms.tsx)
compute an `isValid` flag over the current arm list.  The per-arm numeric
checks are gated on runtime field presence (`"sigma_init" in arm`); a falsy
value (`!arm.sigma_init`, i.e. 0 here) and a non-positive value each clear
`isValid`.  The check `"mu_init" in arm && typeof arm.mu_init !== "number"`
can never fire in this model because a present `mu_init` is always a number,
so it is omitted.
-/

/-- Whitespace for the purposes of JavaScript trim (the characters that occur
in the data at hand). -/
def isJsWhitespace (c : Char) : Bool :=
  c == ' ' || c == '\t' || c == '\n' || c == '\r'

/-- JavaScript `String.prototype.trim`: strip leading and trailing
whitespace. -/
def jsTrim (s : String) : String :=
  ⟨((s.data.dropWhile isJsWhitespace).reverse.dropWhile isJsWhitespace).reverse⟩

/-- The `isValid` result of `AddMABArms.validateForm`: every arm needs a
non-blank name and description; under the "beta" prior, present
`alpha_init`/`beta_init` fields must be truthy and positive; under the
"normal" prior (the only other value), a present `sigma_init` must be truthy
and positive. -/
def validateMABArmsIsValid (s : ExperimentState) : Bool :=
  s.arms.all fun arm =>
    !(jsTrim arm.name == "") &&
    !(jsTrim arm.description == "") &&
    (if s.prior_type == .beta then
      (match arm.alpha_init with
       | some a => !(a == 0) && !(decide (a ≤ 0))
       | none => true) &&
      (match arm.beta_init with
       | some b => !(b == 0) && !(decide (b ≤ 0))
       | none => true)
    else
      (match arm.sigma_init with
       | some v => !(v == 0) && !(decide (v ≤ 0))
       | none => true))

/-- The `isValid` result of `AddBayesABArms.validateForm`: every arm needs a
non-blank name and description; the numeric `sigma_init` check is guarded by
`experimentState.prior_type === "beta"` in the source, so it only runs when
the state's prior field is "beta". -/
def validateBayesABArmsIsValid (s : ExperimentState) : Bool :=
  s.arms.all fun arm =>
    !(jsTrim arm.name == "") &&
    !(jsTrim arm.description == "") &&
    (if s.prior_type == .beta then
      (match arm.sigma_init with
       | some v => !(v == 0) && !(decide (v ≤ 0))
       | none => true)
    else true)

/-!
The notification display component
(`[experimentId]/components/Notifications.tsx`).

Timestamps (`new Date(dateString).getTime()` and `new Date().getTime()`) are
embedded as rational milliseconds; a null or empty `dateCreated` is `none`,
and a null `nTrials` is `none`.
-/

/-- The two notification rule types of the component. -/
inductive NotificationType where
  | days_elapsed
  | trials_completed
deriving DecidableEq

/-- A notification rule as fetched for display
(`[experimentId]/types.ts` `Notification`). -/
structure NotificationRule where
  notification_id : ℤ
  notification_type : NotificationType
  notification_value : ℚ
  is_active : Bool
deriving DecidableEq

/-- `daysSinceDate` of the component: 0 for a missing date, else
`Math.ceil((now - created) / (1000*60*60*24))`. -/
def daysSinceDate (dateCreated : Option ℚ) (nowMs : ℚ) : ℤ :=
  match dateCreated with
  | none => 0
  | some createdMs => ⌈(nowMs - createdMs) / (1000 * 60 * 60 * 24)⌉

/-- `getValue` of the component: the running counter compared against the
rule's threshold (`nTrials || 0` for trials_completed). -/
def getValue (dateCreated : Option ℚ) (nTrials : Option ℚ) (nowMs : ℚ)
    (n : NotificationRule) : ℚ :=
  match n.notification_type with
  | .days_elapsed => (daysSinceDate dateCreated nowMs : ℚ)
  | .trials_completed => nTrials.getD 0

/-- The component marks a rule satisfied (renders the check icon) exactly when
`getValue(notification) >= notification.notification_value`. -/
def notifSatisfied (dateCreated : Option ℚ) (nTrials : Option ℚ) (nowMs : ℚ)
    (n : NotificationRule) : Bool :=
  decide (n.notification_value ≤ getValue dateCreated nTrials nowMs n)

/-- The number of whole days elapsed between the creation timestamp and now
(0 for a missing date): the floor of the elapsed time in days.  This follows
the claim's words, for comparison with `daysSinceDate`. -/
def wholeDaysElapsed (dateCreated : Option ℚ) (nowMs : ℚ) : ℤ :=
  match dateCreated with
  | none => 0
  | some createdMs => ⌊(nowMs - createdMs) / (1000 * 60 * 60 * 24)⌋

/-!
The backend statistical engine (PosteriorUpdateEngine and the
draw/update orchestrator) is not part of the sources here — only its
documentation and frontend callers are — so the parts the claims need are
modelled from the spec (sections 3, 4.1, 4.6 and 7).
-/

/-- Beta prior parameters of a Beta-Bernoulli arm. -/
structure BetaPrior where
  alpha : ℚ
  beta : ℚ
deriving DecidableEq

/-- Modelled from the spec: the backend PosteriorUpdateEngine's rule 1
(Beta-Bernoulli, section 4.1) is missing from the sources; per the spec, for
an observed outcome y the posterior is alpha + y, beta + (1 - y). -/
def betaBernoulliUpdate (p : BetaPrior) (y : ℚ) : BetaPrior :=
  ⟨p.alpha + y, p.beta + (1 - y)⟩

/-- Draw status (section 3): pending | completed | failed. -/
inductive DrawStatus where
  | pending
  | completed
  | failed
deriving DecidableEq

/-- A status is terminal when it is completed or failed. -/
def DrawStatus.isTerminal : DrawStatus → Bool
  | .pending => false
  | .completed => true
  | .failed => true

/-- A Draw record (section 3), reduced to the fields `update_arm` needs. -/
structure Draw where
  draw_id : ℕ
  arm_id : ℕ
  status : DrawStatus
deriving DecidableEq

/-- Per-arm persisted posterior state for a Beta-Bernoulli experiment. -/
structure BetaArmState where
  arm_id : ℕ
  prior : BetaPrior
deriving DecidableEq

/-- Persisted orchestrator state for one Beta-Bernoulli experiment. -/
structure EngineState where
  draws : List Draw
  arms : List BetaArmState
  n_trials : ℕ
deriving DecidableEq

/-- Error kinds of section 7 that `update_arm` can surface. -/
inductive UpdateError where
  | notFound
  | conflict
deriving DecidableEq

/-- Modelled from the spec: the backend orchestrator's `update_arm`
(sections 4.6 and 7) is missing from the sources.  Per the spec it rejects an
unknown draw id with NotFound, rejects a draw already in a terminal state
with ConflictError (no state change), and otherwise applies the posterior
update rule, marks the draw completed and increments the trial counter
atomically. -/
def update_arm (st : EngineState) (draw_id : ℕ) (y : ℚ) :
    Except UpdateError EngineState :=
  match st.draws.find? (fun d => d.draw_id == draw_id) with
  | none => .error .notFound
  | some d =>
    if d.status.isTerminal then .error .conflict
    else
      .ok
        { st with
          draws := st.draws.map fun d2 =>
            if d2.draw_id == draw_id then { d2 with status := .completed }
            else d2
          arms := st.arms.map fun a =>
            if a.arm_id == d.arm_id then
              { a with prior := betaBernoulliUpdate a.prior y }
            else a
          n_trials := st.n_trials + 1 }

/-!  Normal-form lemmas for the store actions whose source bodies branch over
the four type guards but agree on every reachable branch. -/

/-- All four guard branches of `updateArms` replace the arm list; the guards
are exhaustive, so the throwing branch is dead. -/
theorem updateArms_eq (newArms : List Arm) (s : ExperimentState) :
    updateArms newArms s = some { s with arms := newArms } := by
  unfold updateArms isMABExperimentStateBeta isMABExperimentStateNormal
    isCMABExperimentState isBayesianABState
  cases hm : s.methodType <;> cases hp : s.prior_type <;> simp

/-- `setMergeArm` preserves the length of the arm list. -/
theorem setMergeArm_length (arms : List Arm) (i : ℕ) (u : ArmUpdate) :
    (setMergeArm arms i u).length = arms.length := by
  unfold setMergeArm
  cases arms.get? i <;> simp

/-- All four guard branches of `updateArm` perform the same indexed merge. -/
theorem updateArm_eq (i : ℕ) (u : ArmUpdate) (s : ExperimentState) :
    updateArm i u s = some { s with arms := setMergeArm s.arms i u } := by
  unfold updateArm isMABExperimentStateBeta isMABExperimentStateNormal
    isCMABExperimentState isBayesianABState
  cases hm : s.methodType <;> cases hp : s.prior_type <;> simp

/-- `removeArm` in normal form: unchanged at ≤ 2 arms, else one arm spliced
out. -/
theorem removeArm_eq (i : ℕ) (s : ExperimentState) :
    removeArm i s =
      some (if s.arms.length ≤ 2 then s else { s with arms := s.arms.eraseIdx i }) := by
  unfold removeArm isMABExperimentStateBeta isMABExperimentStateNormal
    isCMABExperimentState isBayesianABState
  by_cases hl : s.arms.length ≤ 2
  · simp [hl]
  · cases hm : s.methodType <;> cases hp : s.prior_type <;> simp [hl]

/-- `addArm` either throws (Bayesian A/B) or appends one default arm. -/
theorem addArm_cases (s : ExperimentState) :
    addArm s = none ∨ ∃ a, addArm s = some { s with arms := s.arms ++ [a] } := by
  unfold addArm isMABExperimentStateBeta isMABExperimentStateNormal
    isCMABExperimentState isBayesianABState
  cases hm : s.methodType <;> cases hp : s.prior_type <;> simp

/-- `setMergeContext` preserves the length of the context list. -/
theorem setMergeContext_length (cs : List NewContext) (i : ℕ) (u : ContextUpdate) :
    (setMergeContext cs i u).length = cs.length := by
  unfold setMergeContext
  cases cs.get? i <;> simp

/-- Claim C1: for every Beta-Bernoulli arm with prior (alpha, beta) and every
observed outcome y in 0..1, the Beta-Bernoulli posterior update returns
exactly alpha + y and beta + (1 - y). -/
theorem c1_beta_bernoulli_exact (p : BetaPrior) (y : ℚ) (_hy : y = 0 ∨ y = 1) :
    (betaBernoulliUpdate p y).alpha = p.alpha + y ∧
    (betaBernoulliUpdate p y).beta = p.beta + (1 - y) :=
  ⟨rfl, rfl⟩

/-- Witness for C1 at the concrete prior Beta(1, 1) and outcome y = 1. -/
theorem c1_beta_bernoulli_exact_witness :
    ((1 : ℚ) = 0 ∨ (1 : ℚ) = 1) ∧
      ((betaBernoulliUpdate ⟨1, 1⟩ 1).alpha = 1 + 1 ∧
        (betaBernoulliUpdate ⟨1, 1⟩ 1).beta = 1 + (1 - 1)) :=
  ⟨Or.inr rfl, c1_beta_bernoulli_exact ⟨1, 1⟩ 1 (Or.inr rfl)⟩

/-- Claim C2: `update_arm` on a draw whose status is already terminal
(completed or failed) is rejected with ConflictError; being pure, the
rejection produces no successor state, so the draw and all arm posterior
state are unchanged. -/
theorem c2_update_arm_terminal_conflict (st : EngineState) (draw_id : ℕ)
    (y : ℚ) (d : Draw)
    (hfind : st.draws.find? (fun d2 => d2.draw_id == draw_id) = some d)
    (hterm : d.status = .completed ∨ d.status = .failed) :
    update_arm st draw_id y = .error .conflict := by
  have hT : d.status.isTerminal = true := by
    rcases hterm with h | h <;> simp [h, DrawStatus.isTerminal]
  unfold update_arm
  rw [hfind]
  simp [hT]

/-- Witness for C2: a one-draw state whose only draw is completed. -/
theorem c2_update_arm_terminal_conflict_witness :
    update_arm ⟨[⟨1, 7, .completed⟩], [⟨7, ⟨1, 1⟩⟩], 5⟩ 1 1 =
      .error .conflict :=
  c2_update_arm_terminal_conflict _ 1 1 ⟨1, 7, .completed⟩ rfl (Or.inl rfl)

/-- The prior family fixed per method (spec section 3). -/
def methodPriorFamily : MethodType → PriorType
  | .mab => .beta
  | .cmab => .normal
  | .bayes_ab => .normal

/-- The default arm list installed when switching to a method. -/
def methodDefaultArms : MethodType → List Arm
  | .mab => [betaDefaultArm, betaDefaultArm]
  | .cmab => [normalDefaultArm, normalDefaultArm]
  | .bayes_ab => [bayesTreatmentDefaultArm, bayesControlDefaultArm]

/-- Claim C8: `updateMethodType m` leaves the state unchanged when `m` is the
current method; otherwise the result's prior family is fixed by the method
(beta for mab, normal for cmab and bayes_ab) and its arms are reset to the
default arms of that prior family. -/
theorem c8_update_method_type (s : ExperimentState) (m : MethodType) :
    (m = s.methodType → updateMethodType m s = s) ∧
    (m ≠ s.methodType →
      (updateMethodType m s).methodType = m ∧
      (updateMethodType m s).prior_type = methodPriorFamily m ∧
      (updateMethodType m s).arms = methodDefaultArms m) := by
  constructor
  · intro h
    simp [updateMethodType, h]
  · intro h
    cases m <;> simp [updateMethodType, h, methodPriorFamily, methodDefaultArms]

/-- Witness for C8 at the initial state: switching mab → mab is the identity
and switching mab → cmab installs the normal prior with default arms. -/
theorem c8_update_method_type_witness :
    updateMethodType .mab initialState = initialState ∧
      (updateMethodType .cmab initialState).prior_type = .normal ∧
      (updateMethodType .cmab initialState).arms =
        [normalDefaultArm, normalDefaultArm] :=
  ⟨(c8_update_method_type initialState .mab).1 rfl,
    ((c8_update_method_type initialState .cmab).2 (by decide)).2.1,
    ((c8_update_method_type initialState .cmab).2 (by decide)).2.2⟩

/-- Claim C9: `AddMABArms.validateForm` marks the configuration invalid
whenever, under the beta prior, some arm has a non-positive alpha_init or
beta_init, or, under the normal prior, some arm has a non-positive
sigma_init. -/
theorem c9_mab_validation_rejects_nonpositive (s : ExperimentState)
    (arm : Arm) (q : ℚ) (_hmethod : s.methodType = .mab) (hmem : arm ∈ s.arms)
    (hbad :
      (s.prior_type = .beta ∧
        (arm.alpha_init = some q ∨ arm.beta_init = some q) ∧ q ≤ 0) ∨
      (s.prior_type = .normal ∧ arm.sigma_init = some q ∧ q ≤ 0)) :
    validateMABArmsIsValid s = false := by
  cases hval : validateMABArmsIsValid s with
  | false => rfl
  | true =>
    exfalso
    rw [validateMABArmsIsValid, List.all_eq_true] at hval
    have harm := hval arm hmem
    have hd : decide (q ≤ 0) = true := by
      rcases hbad with ⟨_, _, hq⟩ | ⟨_, _, hq⟩ <;> exact decide_eq_true hq
    rcases hbad with ⟨hpt, hfield, _⟩ | ⟨hpt, hfield, _⟩
    · rcases hfield with h | h <;> simp [hpt, h, hd] at harm
    · simp [hpt, hfield, hd] at harm

/-- Witness for C9: a beta-prior MAB state whose first arm has
alpha_init = -1 is marked invalid. -/
theorem c9_mab_validation_rejects_nonpositive_witness :
    validateMABArmsIsValid
      { initialState with
        arms := [⟨"a", "b", some (-1), some 1, none, none, none⟩,
          betaDefaultArm] } = false :=
  c9_mab_validation_rejects_nonpositive _
    ⟨"a", "b", some (-1), some 1, none, none, none⟩ (-1) rfl
    (List.mem_cons_self _ _)
    (Or.inl ⟨rfl, Or.inl rfl, by norm_num⟩)

/-- Claim C10: on a non-CMAB state each of the four context actions returns
the experiment state completely unchanged. -/
theorem c10_context_ops_frame (s : ExperimentState) (cs : List NewContext)
    (i : ℕ) (u : ContextUpdate) (h : s.methodType ≠ .cmab) :
    updateContexts cs s = s ∧ updateContext i u s = s ∧
      addContext s = s ∧ removeContext i s = s := by
  have hb : isCMABExperimentState s = false := by
    simp [isCMABExperimentState, h]
  refine ⟨?_, ?_, ?_, ?_⟩ <;>
    simp [updateContexts, updateContext, addContext, removeContext, hb]

/-- Witness for C10 at the initial (MAB) state. -/
theorem c10_context_ops_frame_witness :
    updateContexts [defaultContext] initialState = initialState ∧
      updateContext 0 ⟨none, none, none⟩ initialState = initialState ∧
      addContext initialState = initialState ∧
      removeContext 0 initialState = initialState :=
  c10_context_ops_frame initialState [defaultContext] 0 ⟨none, none, none⟩
    (by decide)

/-- A filled-in Bayesian A/B treatment arm whose sigma_init is -1 (typed into
the Std-deviation field). -/
def c4TreatmentArm : Arm :=
  ⟨"T", "t", none, none, some 0, some (-1), some true⟩

/-- A filled-in Bayesian A/B control arm with the default prior. -/
def c4ControlArm : Arm :=
  ⟨"C", "c", none, none, some 0, some 1, some false⟩

/-- A reachable Bayesian A/B state whose treatment arm has a negative
sigma_init. -/
def c4State : ExperimentState :=
  { updateMethodType .bayes_ab initialState with
    arms := [c4TreatmentArm, c4ControlArm] }

/-- Claim C4, code-bug evidence: `AddBayesABArms.validateForm` guards its
sigma_init > 0 check with `prior_type === "beta"`, but every Bayesian A/B
state carries prior_type "normal" (installed by `updateMethodType`), so the
check is dead: a reachable bayes_ab state whose treatment arm has
sigma_init = -1 ≤ 0 is still marked valid.  (The analogous MAB component
guards the same check with "normal", and the spec's sigma > 0 invariant and
the branch's own error message show the check was meant to run.) -/
theorem c4_bayes_sigma_check_dead :
    Reachable c4State ∧ c4State.methodType = .bayes_ab ∧
      c4State.prior_type = .normal ∧ c4TreatmentArm ∈ c4State.arms ∧
      c4TreatmentArm.sigma_init = some (-1) ∧ ((-1 : ℚ) ≤ 0) ∧
      validateBayesABArmsIsValid c4State = true := by
  refine ⟨?_, rfl, rfl, ?_, rfl, by norm_num, rfl⟩
  · exact ReachableW.step (.updArms [c4TreatmentArm, c4ControlArm])
      (ReachableW.step (.updMethodType .bayes_ab) ReachableW.init rfl rfl)
      rfl (updateArms_eq _ _)
  · exact List.mem_cons_self _ _

/-- A days_elapsed rule with threshold 1. -/
def c7Rule : NotificationRule :=
  ⟨1, .days_elapsed, 1, true⟩

/-- Claim C7 counterexample: half a day (43 200 000 ms) after creation, the
component already marks a days_elapsed rule with threshold 1 satisfied
(`daysSinceDate` rounds up with Math.ceil), although the whole number of
days elapsed is 0, which is not ≥ 1. -/
theorem c7_ceil_vs_whole_days_counterexample :
    notifSatisfied (some 0) (some 5) 43200000 c7Rule = true ∧
      wholeDaysElapsed (some 0) 43200000 = 0 ∧
      ¬(c7Rule.notification_value ≤
          ((wholeDaysElapsed (some 0) 43200000 : ℤ) : ℚ)) := by
  have hceil : daysSinceDate (some 0) 43200000 = 1 := by
    show (⌈((43200000 : ℚ) - 0) / (1000 * 60 * 60 * 24)⌉ : ℤ) = 1
    rw [Int.ceil_eq_iff]
    norm_num
  have hfloor : wholeDaysElapsed (some 0) 43200000 = 0 := by
    show (⌊((43200000 : ℚ) - 0) / (1000 * 60 * 60 * 24)⌋ : ℤ) = 0
    rw [Int.floor_eq_iff]
    norm_num
  refine ⟨?_, hfloor, ?_⟩
  · simp [notifSatisfied, getValue, c7Rule, hceil]
  · rw [hfloor]
    norm_num [c7Rule]

/-- The days counter the component actually uses: the ceiling of the elapsed
time in days (a partial day counts as a full one), 0 for a missing date. -/
def ceilDaysElapsed (dateCreated : Option ℚ) (nowMs : ℚ) : ℤ :=
  match dateCreated with
  | none => 0
  | some createdMs => ⌈(nowMs - createdMs) / 86400000⌉

/-- The counter of the amended claim C7: n_trials (0 when null) for
trials_completed, the rounded-up day count for days_elapsed. -/
def amendedCounter (dateCreated nTrials : Option ℚ) (nowMs : ℚ)
    (n : NotificationRule) : ℚ :=
  match n.notification_type with
  | .days_elapsed => (ceilDaysElapsed dateCreated nowMs : ℚ)
  | .trials_completed => nTrials.getD 0

/-- Claim C7 as amended: a rule is marked satisfied exactly when its counter
is ≥ the threshold, where the days_elapsed counter is the number of days
elapsed rounded up (ceiling), not the whole number of days elapsed. -/
theorem c7_amended_satisfied_iff (dateCreated nTrials : Option ℚ)
    (nowMs : ℚ) (n : NotificationRule) :
    notifSatisfied dateCreated nTrials nowMs n = true ↔
      n.notification_value ≤ amendedCounter dateCreated nTrials nowMs n := by
  rcases n with ⟨nid, ty, v, act⟩
  cases ty <;> cases dateCreated <;>
    simp [notifSatisfied, getValue, daysSinceDate, amendedCounter,
      ceilDaysElapsed] <;>
    norm_num

/-- The reachable 3-arm Bayesian A/B state of the C3 counterexample. -/
def c3BadState : ExperimentState :=
  { updateMethodType .bayes_ab initialState with
    arms := [bayesControlDefaultArm, bayesControlDefaultArm,
      bayesControlDefaultArm] }

/-- Claim C3 counterexample: the store action `updateArms` installs an
arbitrary arm list on a Bayesian A/B state, so one reachable bayes_ab state
has 3 arms — not every experiment-store operation preserves the
exactly-2-arms shape. -/
theorem c3_updateArms_breaks_two_arm_shape :
    Reachable c3BadState ∧ c3BadState.methodType = .bayes_ab ∧
      c3BadState.arms.length = 3 := by
  refine ⟨?_, rfl, rfl⟩
  exact ReachableW.step (.updArms _)
    (ReachableW.step (.updMethodType .bayes_ab) ReachableW.init rfl rfl)
    rfl (updateArms_eq _ _)

/-- Claim C3 as amended: switching the method type to bayes_ab produces
exactly two arms with only the first flagged is_treatment_arm; addArm does
not add an arm to a bayes_ab state (it throws, leaving the store unchanged);
and removeArm leaves a 2-arm state unchanged.  (The universal "every
experiment-store operation preserves this" fails: see the counterexample.) -/
theorem c3_amended_bayes_two_arm_behaviors (s : ExperimentState) (i : ℕ) :
    (s.methodType ≠ .bayes_ab →
      (updateMethodType .bayes_ab s).arms.length = 2 ∧
      (updateMethodType .bayes_ab s).arms.map Arm.is_treatment_arm =
        [some true, some false]) ∧
    (s.methodType = .bayes_ab → addArm s = none) ∧
    (s.methodType = .bayes_ab → s.arms.length = 2 → removeArm i s = some s) := by
  refine ⟨?_, ?_, ?_⟩
  · intro h
    have h' : ¬(MethodType.bayes_ab = s.methodType) := fun e => h e.symm
    constructor <;>
      simp [updateMethodType, h', bayesTreatmentDefaultArm,
        bayesControlDefaultArm]
  · intro h
    simp [addArm, isMABExperimentStateBeta, isMABExperimentStateNormal,
      isCMABExperimentState, isBayesianABState, h]
  · intro _ h2
    rw [removeArm_eq]
    simp [h2]

/-- The fresh bayes_ab state used in the C3 witness. -/
def c3WitnessState : ExperimentState :=
  updateMethodType .bayes_ab initialState

/-- Witness for the amended C3 at concrete states. -/
theorem c3_amended_bayes_two_arm_behaviors_witness :
    ((updateMethodType .bayes_ab initialState).arms.map Arm.is_treatment_arm =
      [some true, some false]) ∧
      addArm c3WitnessState = none ∧
      removeArm 0 c3WitnessState = some c3WitnessState :=
  ⟨((c3_amended_bayes_two_arm_behaviors initialState 0).1 (by decide)).2,
    (c3_amended_bayes_two_arm_behaviors c3WitnessState 0).2.1 rfl,
    (c3_amended_bayes_two_arm_behaviors c3WitnessState 0).2.2 rfl rfl⟩

/-- Every store action except `updateArms` preserves "at least 2 arms". -/
theorem arms_ge_two_preserved (op : StoreOp) (s s' : ExperimentState)
    (hop : op.isUpdArms = false) (h : applyOp op s = some s')
    (hlen : 2 ≤ s.arms.length) : 2 ≤ s'.arms.length := by
  cases op with
  | updName n =>
    simp only [applyOp, Option.some.injEq] at h; subst h; exact hlen
  | updDescription d =>
    simp only [applyOp, Option.some.injEq] at h; subst h; exact hlen
  | updStickyAssignment b =>
    simp only [applyOp, Option.some.injEq] at h; subst h; exact hlen
  | updAutoFail b =>
    simp only [applyOp, Option.some.injEq] at h; subst h; exact hlen
  | updAutoFailValue v =>
    simp only [applyOp, Option.some.injEq] at h; subst h; exact hlen
  | updAutoFailUnit u =>
    simp only [applyOp, Option.some.injEq] at h; subst h; exact hlen
  | updMethodType m =>
    simp only [applyOp, Option.some.injEq] at h; subst h
    unfold updateMethodType
    split
    · exact hlen
    · cases m <;> simp
  | updPriorType p =>
    simp only [applyOp, Option.some.injEq] at h; subst h
    unfold updatePriorType
    split
    · exact hlen
    · cases hmt : s.methodType <;> cases p <;> simp [List.length_map, hlen]
  | updRewardType r =>
    simp only [applyOp, Option.some.injEq] at h; subst h; exact hlen
  | updArms as =>
    simp [StoreOp.isUpdArms] at hop
  | updArm i u =>
    simp only [applyOp] at h
    rw [updateArm_eq] at h
    simp only [Option.some.injEq] at h; subst h
    show 2 ≤ (setMergeArm s.arms i u).length
    rw [setMergeArm_length]; exact hlen
  | addArm =>
    simp only [applyOp] at h
    rcases addArm_cases s with hnone | ⟨a, ha⟩
    · rw [hnone] at h; cases h
    · rw [ha] at h
      simp only [Option.some.injEq] at h; subst h
      show 2 ≤ (s.arms ++ [a]).length
      rw [List.length_append]; omega
  | removeArm i =>
    simp only [applyOp] at h
    rw [removeArm_eq] at h
    simp only [Option.some.injEq] at h; subst h
    split
    · exact hlen
    · show 2 ≤ (s.arms.eraseIdx i).length
      rw [List.length_eraseIdx]
      split <;> omega
  | updContexts cs =>
    simp only [applyOp, Option.some.injEq] at h; subst h
    unfold updateContexts
    split <;> exact hlen
  | updContext i u =>
    simp only [applyOp, Option.some.injEq] at h; subst h
    unfold updateContext
    split <;> exact hlen
  | addContext =>
    simp only [applyOp, Option.some.injEq] at h; subst h
    unfold addContext
    split <;> exact hlen
  | removeContext i =>
    simp only [applyOp, Option.some.injEq] at h; subst h
    unfold removeContext
    split <;> exact hlen
  | updNotifications n =>
    simp only [applyOp, Option.some.injEq] at h; subst h; exact hlen
  | reset =>
    simp only [applyOp, Option.some.injEq] at h; subst h
    exact Nat.le_refl 2

/-- The reachable zero-arm state of the C5 counterexample. -/
def c5BadState : ExperimentState :=
  { initialState with arms := [] }

/-- Claim C5 counterexample: the store action `updateArms` installs an
arbitrary arm list, so one store operation away from the initial state the
arm count is 0 — not every reachable state has at least 2 arms. -/
theorem c5_updateArms_empties_arms :
    Reachable c5BadState ∧ c5BadState.arms.length = 0 := by
  refine ⟨?_, rfl⟩
  exact ReachableW.step (.updArms []) ReachableW.init rfl (updateArms_eq _ _)

/-- Claim C5 as amended: the initial state has 2 arms, removeArm returns the
state unchanged whenever the arm list has length ≤ 2, and every state
reachable without `updateArms` (the action that installs an arbitrary arm
list, and breaks the bound) has at least 2 arms. -/
theorem c5_amended_arm_count_lower_bound (s : ExperimentState) (i : ℕ)
    (hreach : ReachableW (fun op => !op.isUpdArms) s) :
    initialState.arms.length = 2 ∧
      (s.arms.length ≤ 2 → removeArm i s = some s) ∧
      2 ≤ s.arms.length := by
  refine ⟨rfl, ?_, ?_⟩
  · intro hle
    rw [removeArm_eq]
    simp [hle]
  · induction hreach with
    | init => exact Nat.le_refl 2
    | step op hr hallow happ ih =>
      exact arms_ge_two_preserved op _ _ (by simpa using hallow) happ ih

/-- Witness for the amended C5 at the initial state. -/
theorem c5_amended_arm_count_lower_bound_witness :
    removeArm 0 initialState = some initialState ∧
      2 ≤ initialState.arms.length :=
  ⟨(c5_amended_arm_count_lower_bound initialState 0 ReachableW.init).2.1
      (by decide),
    (c5_amended_arm_count_lower_bound initialState 0 ReachableW.init).2.2⟩

/-- Every store action except `updateContexts` preserves "a CMAB state has at
least 1 context". -/
theorem cmab_context_lower_bound_preserved (op : StoreOp)
    (s s' : ExperimentState) (hop : op.isUpdContexts = false)
    (h : applyOp op s = some s')
    (hinv : s.methodType = .cmab → 1 ≤ s.contexts.length) :
    s'.methodType = .cmab → 1 ≤ s'.contexts.length := by
  cases op with
  | updName n =>
    simp only [applyOp, Option.some.injEq] at h; subst h; exact hinv
  | updDescription d =>
    simp only [applyOp, Option.some.injEq] at h; subst h; exact hinv
  | updStickyAssignment b =>
    simp only [applyOp, Option.some.injEq] at h; subst h; exact hinv
  | updAutoFail b =>
    simp only [applyOp, Option.some.injEq] at h; subst h; exact hinv
  | updAutoFailValue v =>
    simp only [applyOp, Option.some.injEq] at h; subst h; exact hinv
  | updAutoFailUnit u =>
    simp only [applyOp, Option.some.injEq] at h; subst h; exact hinv
  | updMethodType m =>
    simp only [applyOp, Option.some.injEq] at h; subst h
    unfold updateMethodType
    split
    · exact hinv
    · cases m <;> simp
  | updPriorType p =>
    simp only [applyOp, Option.some.injEq] at h; subst h
    unfold updatePriorType
    split
    · exact hinv
    · cases hmt : s.methodType <;> cases p <;> dsimp only <;> intro hc <;>
        first
          | exact hinv hmt
          | simp at hc
  | updRewardType r =>
    simp only [applyOp, Option.some.injEq] at h; subst h; exact hinv
  | updArms as =>
    simp only [applyOp] at h
    rw [updateArms_eq] at h
    simp only [Option.some.injEq] at h; subst h
    exact hinv
  | updArm i u =>
    simp only [applyOp] at h
    rw [updateArm_eq] at h
    simp only [Option.some.injEq] at h; subst h
    exact hinv
  | addArm =>
    simp only [applyOp] at h
    rcases addArm_cases s with hnone | ⟨a, ha⟩
    · rw [hnone] at h; cases h
    · rw [ha] at h
      simp only [Option.some.injEq] at h; subst h
      exact hinv
  | removeArm i =>
    simp only [applyOp] at h
    rw [removeArm_eq] at h
    simp only [Option.some.injEq] at h; subst h
    split <;> exact hinv
  | updContexts cs =>
    simp [StoreOp.isUpdContexts] at hop
  | updContext i u =>
    simp only [applyOp, Option.some.injEq] at h; subst h
    unfold updateContext
    split
    · exact hinv
    · intro hc
      show 1 ≤ (setMergeContext s.contexts i u).length
      rw [setMergeContext_length]
      exact hinv hc
  | addContext =>
    simp only [applyOp, Option.some.injEq] at h; subst h
    unfold addContext
    split
    · exact hinv
    · intro _
      show 1 ≤ (s.contexts ++ [defaultContext]).length
      simp only [List.length_append, List.length_cons, List.length_nil]
      omega
  | removeContext i =>
    simp only [applyOp, Option.some.injEq] at h; subst h
    unfold removeContext
    split
    · exact hinv
    · next hcond =>
      intro _
      show 1 ≤ (s.contexts.eraseIdx i).length
      simp only [Bool.or_eq_true, decide_eq_true_eq, not_or] at hcond
      have h2 := hcond.2
      rw [List.length_eraseIdx]
      split <;> omega
  | updNotifications n =>
    simp only [applyOp, Option.some.injEq] at h; subst h; exact hinv
  | reset =>
    simp only [applyOp, Option.some.injEq] at h; subst h
    intro hc
    simp [resetState, createInitialState] at hc

/-- The fresh cmab state of the C6 development. -/
def c6CmabState : ExperimentState :=
  updateMethodType .cmab initialState

/-- The reachable zero-context CMAB state of the C6 counterexample. -/
def c6BadState : ExperimentState :=
  { c6CmabState with contexts := [] }

/-- Claim C6 counterexample: the store action `updateContexts` installs an
arbitrary context list, so a reachable CMAB state has 0 contexts — not every
reachable CMAB state has at least 1 context. -/
theorem c6_updateContexts_empties_contexts :
    Reachable c6BadState ∧ c6BadState.methodType = .cmab ∧
      c6BadState.contexts.length = 0 := by
  refine ⟨?_, rfl, rfl⟩
  exact ReachableW.step (.updContexts [])
    (ReachableW.step (.updMethodType .cmab) ReachableW.init rfl rfl) rfl rfl

/-- Claim C6 as amended: switching the method type to cmab creates exactly
one default context, removeContext returns the state unchanged whenever the
context list has length ≤ 1, and every state reachable without
`updateContexts` (the action that installs an arbitrary context list, and
breaks the bound) has at least 1 context whenever it is a CMAB state. -/
theorem c6_amended_cmab_context_lower_bound (s t u : ExperimentState) (i : ℕ)
    (hreach : ReachableW (fun op => !op.isUpdContexts) s)
    (ht : t.methodType ≠ .cmab) (hu : u.contexts.length ≤ 1) :
    (updateMethodType .cmab t).contexts = [defaultContext] ∧
      removeContext i u = u ∧
      (s.methodType = .cmab → 1 ≤ s.contexts.length) := by
  refine ⟨?_, ?_, ?_⟩
  · have ht' : ¬(MethodType.cmab = t.methodType) := fun e => ht e.symm
    simp [updateMethodType, ht']
  · unfold removeContext
    have hcond : (!isCMABExperimentState u ||
        decide (u.contexts.length ≤ 1)) = true := by
      simp [hu]
    exact if_pos hcond
  · induction hreach with
    | init => intro hc; exact absurd hc (by decide)
    | step op hr hallow happ ih =>
      exact cmab_context_lower_bound_preserved op _ _ (by simpa using hallow)
        happ ih

/-- Witness for the amended C6 at the initial state. -/
theorem c6_amended_cmab_context_lower_bound_witness :
    (updateMethodType .cmab initialState).contexts = [defaultContext] ∧
      removeContext 0 initialState = initialState ∧
      (initialState.methodType = .cmab → 1 ≤ initialState.contexts.length) :=
  c6_amended_cmab_context_lower_bound initialState initialState initialState 0
    ReachableW.init (by decide) (by decide)

end ExpEngine
